import Mathlib

/-!
Verification of the arithmetization-layer examples of the learning-Halo2
repository: the range-check circuits (direct gate and lookup variants), the
add-recurrence circuits in two column layouts, and the constraint verifier
that checks gates, lookups, copy constraints and public-input bindings
against a frozen witness table.

The circuits (gates, witness assignment, selector placement, copy edges,
instance bindings) are translated from the repository sources
(range_check/src/example1.rs, example2.rs, table.rs,
fibonacci/src/appraoch1_2.rs, appraoch2.rs).  The verifier itself lives in
the external proving library; it is modelled from the specification of the
constraint verifier (read-only pass collecting every violation, ordered by
row, then gate, then constraint).
-/

namespace Halo2

/-- Order of the prime field used by every example (the pasta Fp base field). -/
def P : ℕ := 28948022309329048855892746252171976963363056481941560715954676764349967630337

/-- The field of the examples. -/
abbrev F := ZMod P

instance : NeZero P := ⟨by norm_num [P]⟩

/-- Expression AST over columns, after the library Expression type: constants,
selector queries, advice queries at a (non-negative) rotation, sums, products
and negation.  All rotations appearing in this repository are 0, +1, +2. -/
inductive Expr where
  | const : F → Expr
  | sel : ℕ → Expr
  | adv : ℕ → ℕ → Expr
  | sum : Expr → Expr → Expr
  | prod : Expr → Expr → Expr
  | neg : Expr → Expr
deriving DecidableEq

/-- A frozen witness table: selector values and advice values per column and
absolute row.  Cells never assigned hold zero. -/
structure Table where
  sel : ℕ → ℕ → F
  adv : ℕ → ℕ → F

/-- Evaluate an expression at absolute row r, resolving an advice query at
rotation rot to the advice value at row r + rot. -/
def Expr.eval (t : Table) (r : ℕ) : Expr → F
  | .const c => c
  | .sel s => t.sel s r
  | .adv c rot => t.adv c (r + rot)
  | .sum a b => a.eval t r + b.eval t r
  | .prod a b => a.eval t r * b.eval t r
  | .neg a => - a.eval t r

/-- The advice cells (column, rotation) queried by an expression, first
occurrence first, without duplicates. -/
def Expr.advQueries : Expr → List (ℕ × ℕ)
  | .const _ => []
  | .sel _ => []
  | .adv c rot => [(c, rot)]
  | .sum a b => (a.advQueries ++ b.advQueries).dedup
  | .prod a b => (a.advQueries ++ b.advQueries).dedup
  | .neg a => a.advQueries

/-- Hexadecimal rendering of a field element, as the diagnostic report prints
cell values (for example the value 8 prints as 0x8). -/
def hexOfF (x : F) : String := "0x" ++ String.mk (Nat.toDigits 16 x.val)

/-- A structured failure record of the constraint verifier. -/
inductive Failure where
  | constraintNotSatisfied (gate cname region : String) (offset : ℕ)
      (cellValues : List ((ℕ × ℕ) × String)) : Failure
  | lookupFault (lookupIndex row : ℕ) (value : F) : Failure
  | permFault (a b : ℕ × ℕ) : Failure
  | instanceMismatch (instanceRow : ℕ) (cellValue expected : F) : Failure
deriving DecidableEq

/-- A gate: a name and named constraint polynomials, all gated by the same
selector (the selector factor is part of each polynomial). -/
structure Gate where
  name : String
  polys : List (String × Expr)

/-- A frozen constraint system plus layout metadata: total row count, gates,
lookup arguments (input expression and loaded table values), copy-constraint
edges between advice cells, bindings of advice cells to public-input rows, and
the named regions (name, start row, row count) for failure locations. -/
structure System where
  rows : ℕ
  gates : List Gate
  lookups : List (Expr × List F)
  copies : List ((ℕ × ℕ) × (ℕ × ℕ))
  bindings : List ((ℕ × ℕ) × ℕ)
  regions : List (String × ℕ × ℕ)

/-- Locate an absolute row inside the named regions, returning the region name
and the local offset; rows outside every region report an absolute location. -/
def locate (regions : List (String × ℕ × ℕ)) (r : ℕ) : String × ℕ :=
  match regions.find? (fun q => decide (q.2.1 ≤ r ∧ r < q.2.1 + q.2.2)) with
  | some q => (q.1, r - q.2.1)
  | none => ("", r)

/-- Public input lookup: positional, out-of-range rows read as zero. -/
def pubAt (pub : List F) (i : ℕ) : F := pub.getD i 0

/-- Modelled from the spec: the gate pass of the constraint verifier (the
library MockProver is external).  For every absolute row, for every gate, each
constraint polynomial must evaluate to zero; violations are collected, not
fail-fast, ordered by row, then gate declaration order, then constraint order,
each carrying the gate and constraint names, the region name and local offset,
and the cells the expression referenced with their rendered values. -/
def gateRowStep (s : System) (t : Table) (r : ℕ) : List Failure :=
  s.gates.flatMap fun g =>
    g.polys.filterMap fun p =>
      if p.2.eval t r = 0 then none
      else
        some (.constraintNotSatisfied g.name p.1 (locate s.regions r).1
          (locate s.regions r).2
          (p.2.advQueries.map fun q => (q, hexOfF (t.adv q.1 (r + q.2)))))

/-- The gate pass over all rows, in row order. -/
def gateFailures (s : System) (t : Table) : List Failure :=
  (List.range s.rows).flatMap (gateRowStep s t)

/-- Modelled from the spec: the lookup pass of the constraint verifier.  At
every row the evaluated input expression must be a member of the values loaded
into the lookup table column; absence is a failure naming the row and value. -/
def lookupFailures (s : System) (t : Table) : List Failure :=
  (List.range s.rows).flatMap fun r =>
    s.lookups.enum.filterMap fun li =>
      if li.2.1.eval t r ∈ li.2.2 then none
      else some (.lookupFault li.1 r (li.2.1.eval t r))

/-- Modelled from the spec: the copy-constraint pass of the constraint
verifier.  Two cells joined by a copy edge must hold equal values. -/
def copyFailures (s : System) (t : Table) : List Failure :=
  s.copies.filterMap fun c =>
    if t.adv c.1.1 c.1.2 = t.adv c.2.1 c.2.2 then none
    else some (.permFault c.1 c.2)

/-- Modelled from the spec: the public-input pass of the constraint verifier.
Every bound advice cell must equal the public input at its declared row. -/
def bindingFailures (s : System) (t : Table) (pub : List F) : List Failure :=
  s.bindings.filterMap fun b =>
    if t.adv b.1.1 b.1.2 = pubAt pub b.2 then none
    else some (.instanceMismatch b.2 (t.adv b.1.1 b.1.2) (pubAt pub b.2))

/-- Modelled from the spec: the full verifier report on a frozen
(system, table, public input): one read-only pass collecting every gate,
lookup, copy-constraint and public-input violation. -/
def verify (s : System) (t : Table) (pub : List F) : List Failure :=
  gateFailures s t ++ lookupFailures s t ++ copyFailures s t ++
    bindingFailures s t pub

/-- From example1.rs (and example2.rs): the range_check closure.  Starting
from the queried value itself, fold over i in 0..range, multiplying by
(constant i minus the value). -/
def rangeCheckFold (range : ℕ) (value : Expr) : Expr :=
  (List.range range).foldl
    (fun expr (i : ℕ) => .prod expr (.sum (.const (i : F)) (.neg value))) value

/-- Modelled from the spec: the range-check algebra the spec claims, the bare
product over i in 0..range of (constant i minus the value), for comparison
with the expression the source builds. -/
def rangeCheckSpecExpr (range : ℕ) (value : Expr) : Expr :=
  (List.range range).foldl
    (fun expr (i : ℕ) => .prod expr (.sum (.const (i : F)) (.neg value))) (.const 1)

/-- From example1.rs configure: the gate named Range check with the single
constraint named range_check, the selector multiplied in (as
Constraints::with_selector does), RANGE = 8. -/
def rc1Gate : Gate :=
  { name := "Range check"
    polys := [("range_check", .prod (.sel 0) (rangeCheckFold 8 (.adv 0 0)))] }

/-- From example1.rs tests: the synthesized system for MyCircuit with
RANGE = 8 at k = 4 (16 rows): the one gate, no lookups, no copies, no public
bindings, and the single one-row region named Assign value placed at row 0. -/
def rc1System : System :=
  { rows := 16
    gates := [rc1Gate]
    lookups := []
    copies := []
    bindings := []
    regions := [("Assign value", 0, 1)] }

/-- From example1.rs assign: the witness table for a claimed value v; the
selector is enabled at offset 0 of the region and v sits in the advice column
at offset 0; all other cells are unassigned (zero). -/
def rc1Table (v : F) : Table :=
  { sel := fun s r => if s = 0 ∧ r = 0 then 1 else 0
    adv := fun c r => if c = 0 ∧ r = 0 then v else 0 }

/-- From appraoch1_2.rs synthesize loop (assign_row): each further one-row
region receives the previous b and c values into columns 0 and 1 (by copy)
and assigns column 2 to their sum. -/
def fiboNextRows (pb pc : F) : ℕ → List (F × F × F)
  | 0 => []
  | k + 1 => (pb, pc, pb + pc) :: fiboNextRows pc (pb + pc) k

/-- From appraoch1_2.rs synthesize: the first-row region (a, b, a + b)
followed by the seven loop regions (the loop runs for i in 3..10). -/
def fibo1Rows (a b : F) : List (F × F × F) :=
  (a, b, a + b) :: fiboNextRows b (a + b) 7

/-- The terminal value of the three-column layout: the c cell of the last
region, exposed as the public output. -/
def fibo1Out (a b : F) : F := ((fibo1Rows a b).getD 7 (0, 0, 0)).2.2

/-- From appraoch1_2.rs configure: the gate named add with the single unnamed
constraint s * (a + b - c) over the three advice columns at rotation 0. -/
def fibo1Gate : Gate :=
  { name := "add"
    polys := [("", .prod (.sel 0)
      (.sum (.sum (.adv 0 0) (.adv 1 0)) (.neg (.adv 2 0))))] }

/-- From appraoch1_2.rs synthesize loop: the copy edges created by
copy_advice, tracking the cell coordinates the loop shuffles (prev_b becomes
the previous prev_c cell, prev_c the cell just assigned in column 2). -/
def fibo1CopiesAux : ℕ → ℕ × ℕ → ℕ × ℕ → ℕ → List ((ℕ × ℕ) × (ℕ × ℕ))
  | _, _, _, 0 => []
  | row, pb, pc, k + 1 =>
      ((0, row), pb) :: ((1, row), pc) :: fibo1CopiesAux (row + 1) pc (2, row) k

/-- The fourteen copy edges of the seven loop regions, starting from the
first-row b cell (column 1, row 0) and c cell (column 2, row 0). -/
def fibo1Copies : List ((ℕ × ℕ) × (ℕ × ℕ)) := fibo1CopiesAux 1 (1, 0) (2, 0) 7

/-- From appraoch1_2.rs main and synthesize at k = 4 (16 rows): the add gate,
no lookups, the loop copy edges, the three expose_public bindings (first-row
a and b cells to public rows 0 and 1, last c cell to public row 2), and the
eight sequentially placed one-row regions. -/
def fibo1System : System :=
  { rows := 16
    gates := [fibo1Gate]
    lookups := []
    copies := fibo1Copies
    bindings := [((0, 0), 0), ((1, 0), 1), ((2, 7), 2)]
    regions := ("first row", 0, 1) ::
      (List.range 7).map (fun i => ("next row", i + 1, 1)) }

/-- From appraoch1_2.rs: the witness table synthesized from seeds a and b;
the selector is enabled at each of the eight region rows. -/
def fibo1Table (a b : F) : Table :=
  { sel := fun s r => if s = 0 ∧ r < 8 then 1 else 0
    adv := fun c r =>
      let q := (fibo1Rows a b).getD r (0, 0, 0)
      if c = 0 then q.1 else if c = 1 then q.2.1 else if c = 2 then q.2.2
      else 0 }

/-- The three-column layout verifier run: synthesize from the seeds, then
verify against the public input. -/
def fibo1Verify (a b : F) (pub : List F) : List Failure :=
  verify fibo1System (fibo1Table a b) pub

/-- From appraoch2.rs assign loop: each row from 2 on holds the sum of the
two previous rows (x and y track a_cell and b_cell). -/
def fibo2ValsAux (x y : F) : ℕ → List F
  | 0 => []
  | k + 1 => (x + y) :: fibo2ValsAux y (x + y) k

/-- From appraoch2.rs assign with nrows = 10: the single advice column holds
the two values copied from instance rows 0 and 1 followed by eight sums. -/
def fibo2Col (p0 p1 : F) : List F := p0 :: p1 :: fibo2ValsAux p0 p1 8

/-- The terminal value of the single-column layout: row 9, exposed as the
public output. -/
def fibo2Out (p0 p1 : F) : F := (fibo2Col p0 p1).getD 9 0

/-- From appraoch2.rs assign: the selector enabling pattern for nrows rows -
offsets 0 and 1 explicitly, then each loop row strictly below nrows - 2. -/
def fib2SelectorOn (nrows row : ℕ) : Bool :=
  row = 0 || row = 1 || (2 ≤ row && row < nrows && row < nrows - 2)

/-- From appraoch2.rs configure: the gate named add with the single unnamed
constraint s * (a + b - c), reading the one advice column at rotations
0, +1 and +2. -/
def fibo2Gate : Gate :=
  { name := "add"
    polys := [("", .prod (.sel 0)
      (.sum (.sum (.adv 0 0) (.adv 0 1)) (.neg (.adv 0 2))))] }

/-- From appraoch2.rs main and synthesize at k = 4 (16 rows): the add gate
and the three instance bindings (rows 0 and 1 via
assign_advice_from_instance, row 9 via expose_public to public row 2). -/
def fibo2System : System :=
  { rows := 16
    gates := [fibo2Gate]
    lookups := []
    copies := []
    bindings := [((0, 0), 0), ((0, 1), 1), ((0, 9), 2)]
    regions := [("entire fibonacci table", 0, 10)] }

/-- From appraoch2.rs: the witness table synthesized for nrows = 10; the two
seed rows are read from the public input (assign_advice_from_instance), and
the selector follows the enabling pattern. -/
def fibo2Table (pub : List F) : Table :=
  { sel := fun s r => if s = 0 ∧ fib2SelectorOn 10 r then 1 else 0
    adv := fun c r =>
      if c = 0 then (fibo2Col (pubAt pub 0) (pubAt pub 1)).getD r 0 else 0 }

/-- The single-column (rotation) layout verifier run against a public input:
the witness itself is synthesized from that public input. -/
def fibo2Verify (pub : List F) : List Failure :=
  verify fibo2System (fibo2Table pub) pub

set_option maxRecDepth 8000

/-- Evaluating the fold of example1's range_check closure: starting the fold
at init, the result is the value of init times the product of (i minus the
queried value) over the folded indices. -/
theorem rangeCheckFold_eval_aux (l : List ℕ) (init e : Expr) (t : Table) (r : ℕ) :
    ((l.foldl (fun expr (i : ℕ) => .prod expr (.sum (.const (i : F)) (.neg e))) init).eval t r) =
      init.eval t r * (l.map (fun i : ℕ => ((i : F) - e.eval t r))).prod := by
  induction l generalizing init with
  | nil => simp
  | cons i l ih =>
    simp only [List.foldl_cons, List.map_cons, List.prod_cons]
    rw [ih]
    simp only [Expr.eval]
    ring

/-- C2 counterexample: already at range 1, with queried value 2, the
expression the source builds evaluates differently from the bare product
claimed by the spec (the source folds starting from the value itself, so the
value is an extra leading factor: -4 versus -2). -/
theorem rangeCheck_expr_not_bare_product :
    (rangeCheckFold 1 (.adv 0 0)).eval (rc1Table 2) 0 ≠
      (rangeCheckSpecExpr 1 (.adv 0 0)).eval (rc1Table 2) 0 := by decide

/-- C2 (amended): for every range R, the expression built by the range-check
gate for a queried value evaluates to the value times the product over i from
0 to R-1 of (i - value) - one factor of the value more (hence degree R + 1 in
the value, not R) than the bare product the spec states. -/
theorem rangeCheckFold_eval (range : ℕ) (e : Expr) (t : Table) (r : ℕ) :
    (rangeCheckFold range e).eval t r =
      e.eval t r * ((List.range range).map (fun i : ℕ => ((i : F) - e.eval t r))).prod := by
  unfold rangeCheckFold
  exact rangeCheckFold_eval_aux (List.range range) e e t r

/-- C1: for the range-check circuit with RANGE = 8, every value v below 8
verifies with zero failures, and v = 8 yields exactly one
ConstraintNotSatisfied failure whose cell-value detail names the queried
advice cell (column 0, rotation 0) with value 0x8, located in the region
named Assign value at offset 0. -/
theorem rc1_verify_spec :
    (∀ v : ℕ, v < 8 → verify rc1System (rc1Table (v : F)) [] = []) ∧
      verify rc1System (rc1Table ((8 : ℕ) : F)) [] =
        [.constraintNotSatisfied "Range check" "range_check" "Assign value" 0
          [((0, 0), "0x8")]] := by
  constructor
  · decide
  · decide

/-- C1 witness: the in-range value 3 verifies with zero failures. -/
theorem rc1_verify_spec_witness :
    verify rc1System (rc1Table ((3 : ℕ) : F)) [] = [] :=
  rc1_verify_spec.1 3 (by decide)

/-- C3: seeding the recurrence with a = 1 and b = 1 for 10 rows produces the
terminal value 55 under both column layouts, and binding the public input
[1, 1, 55] to the exposed cells verifies with zero failures in both. -/
theorem fibo_both_layouts_terminal_55 :
    fibo1Out 1 1 = 55 ∧ fibo2Out 1 1 = 55 ∧
      fibo1Verify 1 1 [1, 1, 55] = [] ∧ fibo2Verify [1, 1, 55] = [] :=
  ⟨by decide, by decide, by decide, by decide⟩

/-- C5: with the witness still seeded 1, 1 (terminal 55), declaring the
public output 56 makes verification report exactly one failure, a
PublicInputMismatch at public row 2, and zero ConstraintNotSatisfied, in
either layout. -/
theorem fibo_public_output_56_mismatch :
    fibo1Verify 1 1 [1, 1, 56] = [.instanceMismatch 2 55 56] ∧
      fibo2Verify [1, 1, 56] = [.instanceMismatch 2 55 56] :=
  ⟨by decide, by decide⟩

/-- The gate pass reports nothing when every constraint polynomial of every
gate evaluates to zero at every row. -/
theorem gateFailures_eq_nil (s : System) (t : Table)
    (h : ∀ r < s.rows, ∀ g ∈ s.gates, ∀ p ∈ g.polys, Expr.eval t r p.2 = 0) :
    gateFailures s t = [] := by
  unfold gateFailures gateRowStep
  refine List.flatMap_eq_nil_iff.mpr fun r hr => ?_
  refine List.flatMap_eq_nil_iff.mpr fun g hg => ?_
  refine List.filterMap_eq_nil_iff.mpr fun p hp => ?_
  rw [h r (List.mem_range.mp hr) g hg p hp]
  simp

/-- A system without lookup arguments has an empty lookup pass. -/
theorem lookupFailures_of_no_lookups (s : System) (t : Table)
    (h : s.lookups = []) : lookupFailures s t = [] := by
  unfold lookupFailures
  rw [h]
  simp

/-- The gate pass of the three-column layout is empty for all seeds: at each
of the eight active rows the witnessed c cell is literally the sum of the a
and b cells, and the selector is off elsewhere. -/
theorem fibo1_gateFailures (a b : F) :
    gateFailures fibo1System (fibo1Table a b) = [] := by
  refine gateFailures_eq_nil _ _ fun r hr g hg p hp => ?_
  simp only [fibo1System, fibo1Gate, List.mem_singleton] at hg
  subst hg
  simp only [List.mem_singleton] at hp
  subst hp
  simp only [fibo1System] at hr
  interval_cases r <;>
    simp [Expr.eval, fibo1Table, fibo1Rows, fiboNextRows] <;> ring

/-- The copy pass of the three-column layout is empty for all seeds: every
copy edge joins two cells carrying the same witnessed value. -/
theorem fibo1_copyFailures (a b : F) :
    copyFailures fibo1System (fibo1Table a b) = [] := by
  unfold copyFailures
  refine List.filterMap_eq_nil_iff.mpr fun c hc => ?_
  have hcopies : fibo1System.copies =
      [((0, 1), (1, 0)), ((1, 1), (2, 0)),
       ((0, 2), (2, 0)), ((1, 2), (2, 1)),
       ((0, 3), (2, 1)), ((1, 3), (2, 2)),
       ((0, 4), (2, 2)), ((1, 4), (2, 3)),
       ((0, 5), (2, 3)), ((1, 5), (2, 4)),
       ((0, 6), (2, 4)), ((1, 6), (2, 5)),
       ((0, 7), (2, 5)), ((1, 7), (2, 6))] := rfl
  rw [hcopies] at hc
  fin_cases hc <;> exact if_pos rfl

/-- The first-row a cell of the three-column layout carries the seed a. -/
theorem fibo1Table_adv00 (a b : F) : (fibo1Table a b).adv 0 0 = a := rfl

/-- The first-row b cell of the three-column layout carries the seed b. -/
theorem fibo1Table_adv10 (a b : F) : (fibo1Table a b).adv 1 0 = b := rfl

/-- The last c cell of the three-column layout carries the terminal value. -/
theorem fibo1Table_adv27 (a b : F) :
    (fibo1Table a b).adv 2 7 = fibo1Out a b := rfl

/-- The public-input pass of the three-column layout on [a, b, out] reduces
to the single check of the terminal value against out. -/
theorem fibo1_bindingFailures (a b out : F) :
    bindingFailures fibo1System (fibo1Table a b) [a, b, out] =
      if fibo1Out a b = out then []
      else [.instanceMismatch 2 (fibo1Out a b) out] := by
  unfold bindingFailures
  have hbind : fibo1System.bindings = [((0, 0), 0), ((1, 0), 1), ((2, 7), 2)] := rfl
  rw [hbind]
  simp only [List.filterMap_cons, List.filterMap_nil, fibo1Table_adv00,
    fibo1Table_adv10, fibo1Table_adv27]
  have h0 : pubAt [a, b, out] 0 = a := rfl
  have h1 : pubAt [a, b, out] 1 = b := rfl
  have h2 : pubAt [a, b, out] 2 = out := rfl
  rw [h0, h1, h2, if_pos rfl, if_pos rfl]
  by_cases h : fibo1Out a b = out
  · rw [if_pos h, if_pos h]
  · rw [if_neg h, if_neg h]

/-- The three-column layout verifier, on public input [a, b, out] matching
its own seeds, accepts exactly when the terminal value equals out. -/
theorem fibo1_nil_iff (a b out : F) :
    fibo1Verify a b [a, b, out] = [] ↔ fibo1Out a b = out := by
  unfold fibo1Verify verify
  rw [fibo1_gateFailures, lookupFailures_of_no_lookups _ _ rfl,
    fibo1_copyFailures, fibo1_bindingFailures]
  by_cases h : fibo1Out a b = out
  · simp [h]
  · simp [h]

/-- The gate pass of the single-column rotation layout is empty for every
public input: at each active row the cell two below is literally the sum of
the cell at the row and the cell one below. -/
theorem fibo2_gateFailures (pub : List F) :
    gateFailures fibo2System (fibo2Table pub) = [] := by
  refine gateFailures_eq_nil _ _ fun r hr g hg p hp => ?_
  simp only [fibo2System, fibo2Gate, List.mem_singleton] at hg
  subst hg
  simp only [List.mem_singleton] at hp
  subst hp
  simp only [fibo2System] at hr
  interval_cases r <;>
    simp [Expr.eval, fibo2Table, fibo2Col, fibo2ValsAux, fib2SelectorOn] <;>
    ring

/-- The two seed cells of the single-column layout carry the public values
they were assigned from, and the row-9 cell carries the terminal value. -/
theorem fibo2Table_adv (pub : List F) :
    (fibo2Table pub).adv 0 0 = pubAt pub 0 ∧
      (fibo2Table pub).adv 0 1 = pubAt pub 1 ∧
      (fibo2Table pub).adv 0 9 = fibo2Out (pubAt pub 0) (pubAt pub 1) :=
  ⟨rfl, rfl, rfl⟩

/-- The public-input pass of the single-column layout on [p0, p1, p2]
reduces to the single check of the terminal value against p2. -/
theorem fibo2_bindingFailures (p0 p1 p2 : F) :
    bindingFailures fibo2System (fibo2Table [p0, p1, p2]) [p0, p1, p2] =
      if fibo2Out p0 p1 = p2 then []
      else [.instanceMismatch 2 (fibo2Out p0 p1) p2] := by
  unfold bindingFailures
  have hbind : fibo2System.bindings = [((0, 0), 0), ((0, 1), 1), ((0, 9), 2)] := rfl
  rw [hbind]
  simp only [List.filterMap_cons, List.filterMap_nil,
    (fibo2Table_adv [p0, p1, p2]).1, (fibo2Table_adv [p0, p1, p2]).2.1,
    (fibo2Table_adv [p0, p1, p2]).2.2]
  have h0 : pubAt [p0, p1, p2] 0 = p0 := rfl
  have h1 : pubAt [p0, p1, p2] 1 = p1 := rfl
  have h2 : pubAt [p0, p1, p2] 2 = p2 := rfl
  rw [h0, h1, h2]
  by_cases h : fibo2Out p0 p1 = p2
  · simp [h]
  · simp [h]

/-- The single-column rotation layout verifier, on public input [p0, p1, p2],
accepts exactly when the terminal value computed from p0 and p1 equals p2. -/
theorem fibo2_nil_iff (p0 p1 p2 : F) :
    fibo2Verify [p0, p1, p2] = [] ↔ fibo2Out p0 p1 = p2 := by
  unfold fibo2Verify verify
  have hcopy : copyFailures fibo2System (fibo2Table [p0, p1, p2]) = [] := rfl
  rw [fibo2_gateFailures, lookupFailures_of_no_lookups _ _ rfl, hcopy,
    fibo2_bindingFailures]
  by_cases h : fibo2Out p0 p1 = p2
  · simp [h]
  · simp [h]

/-- The two layouts witness the same terminal value from the same seeds. -/
theorem fibo1Out_eq_fibo2Out (a b : F) : fibo1Out a b = fibo2Out a b := rfl

/-- C4: for every logical input sequence - seeds a, b and declared public
output out, bound as public input [a, b, out] - the three-column row-local
layout and the single-column rotation layout produce identical verification
outcomes: one verifies with zero failures exactly when the other does. -/
theorem fibo_layouts_equivalent (a b out : F) :
    fibo1Verify a b [a, b, out] = [] ↔ fibo2Verify [a, b, out] = [] := by
  rw [fibo1_nil_iff, fibo2_nil_iff, fibo1Out_eq_fibo2Out]

/-- Modelled from the spec: the verifier as an explicit state-passing run.
The gate pass folds over the rows threading the witness table through the
accumulator, and the remaining passes read the table the fold hands back, so
that freedom from table mutation is an expressible, provable property. -/
def verifyRun (s : System) (t : Table) (pub : List F) :
    List Failure × Table :=
  let g := (List.range s.rows).foldl
    (fun acc r => (acc.1 ++ gateRowStep s acc.2 r, acc.2)) ([], t)
  (g.1 ++ lookupFailures s g.2 ++ copyFailures s g.2 ++
    bindingFailures s g.2 pub, g.2)

/-- The row fold of the state-passing verifier appends the per-row gate
failures and hands the table back unchanged. -/
theorem verifyRun_foldl_eq (s : System) (t : Table) (l : List ℕ)
    (acc : List Failure) :
    l.foldl (fun acc r => (acc.1 ++ gateRowStep s acc.2 r, acc.2)) (acc, t) =
      (acc ++ l.flatMap (gateRowStep s t), t) := by
  induction l generalizing acc with
  | nil => simp
  | cons x l ih =>
    rw [List.foldl_cons, List.flatMap_cons]
    simpa [List.append_assoc] using ih (acc ++ gateRowStep s t x)

/-- The state-passing verifier run computes the one-pass report and returns
the table it was given. -/
theorem verifyRun_eq (s : System) (t : Table) (pub : List F) :
    verifyRun s t pub = (verify s t pub, t) := by
  unfold verifyRun verify gateFailures
  rw [verifyRun_foldl_eq s t (List.range s.rows) []]
  simp

/-- C7: the verifier is deterministic and read-only: a run returns the
witness table unchanged and reports exactly the one-pass failure list, so
re-running it on the table a run hands back - against the same public input
or a different one - yields the identical ordered failure list the fresh
table would give. -/
theorem verifier_readonly_deterministic (s : System) (t : Table)
    (pub pub2 : List F) :
    (verifyRun s t pub).2 = t ∧
      (verifyRun s t pub).1 = verify s t pub ∧
      (verifyRun s (verifyRun s t pub).2 pub).1 = (verifyRun s t pub).1 ∧
      (verifyRun s (verifyRun s t pub).2 pub2).1 = (verifyRun s t pub2).1 := by
  simp [verifyRun_eq]

/-- From example2.rs configure and table.rs load: the lookup range-check
system - the range-check gate (selector 0, left disabled here), and the
lookup argument pairing the input expression q_lookup times the advice value
with the table column loaded with the values 0..L-1 - for a table of n rows. -/
def rc2System (L n : ℕ) : System :=
  { rows := n
    gates := [rc1Gate]
    lookups := [(.prod (.sel 1) (.adv 0 0),
      (List.range L).map (fun i : ℕ => (i : F)))]
    copies := []
    bindings := []
    regions := [("Assign value for lookup range check", 0, 1)] }

/-- From example2.rs assign (the lookup branch): the value sits at offset 0
of the region with the q_lookup selector (index 1) enabled there; the
q_range_check selector (index 0) stays disabled everywhere. -/
def rc2Table (v : F) : Table :=
  { sel := fun s r => if s = 1 ∧ r = 0 then 1 else 0
    adv := fun c r => if c = 0 ∧ r = 0 then v else 0 }

/-- Casting is injective below the field order: a natural below P is in the
cast image of 0..L-1 exactly when it is below L. -/
theorem castMemRange (x L : ℕ) (hx : x < P) (hL : L ≤ P) :
    ((x : F) ∈ (List.range L).map (fun i : ℕ => (i : F)) ↔ x < L) := by
  simp only [List.mem_map, List.mem_range]
  constructor
  · rintro ⟨i, hi, hc⟩
    have h1 : ((i : ℕ) : F).val = i := ZMod.val_cast_of_lt (lt_of_lt_of_le hi hL)
    have h2 : ((x : ℕ) : F).val = x := ZMod.val_cast_of_lt hx
    rw [hc] at h1
    omega
  · intro h
    exact ⟨x, h, rfl⟩

/-- The gate pass of the lookup range-check scenario is empty: the
range-check selector is never enabled. -/
theorem rc2_gateFailures (L n : ℕ) (x : F) :
    gateFailures (rc2System L n) (rc2Table x) = [] := by
  refine gateFailures_eq_nil _ _ fun r hr g hg p hp => ?_
  simp only [rc2System, List.mem_singleton] at hg
  subst hg
  simp only [rc1Gate, List.mem_singleton] at hp
  subst hp
  have hsel : (rc2Table x).sel 0 r = 0 := by simp [rc2Table]
  simp [Expr.eval, hsel]

/-- The single lookup argument of the lookup range-check system, with its
enumeration index, as the verifier walks the lookups. -/
def rc2Lookup (L : ℕ) : ℕ × Expr × List F :=
  (0, .prod (.sel 1) (.adv 0 0), (List.range L).map (fun i : ℕ => (i : F)))

/-- The lookup pass of the lookup range-check system at one row. -/
def rc2RowCheck (L : ℕ) (x : F) (r : ℕ) : List Failure :=
  [rc2Lookup L].filterMap fun li =>
    if li.2.1.eval (rc2Table x) r ∈ li.2.2 then none
    else some (Failure.lookupFault li.1 r (li.2.1.eval (rc2Table x) r))

/-- The per-row lookup check is the membership test of the evaluated input
against the loaded table values. -/
theorem rc2RowCheck_eq (L : ℕ) (x : F) (r : ℕ) :
    rc2RowCheck L x r =
      if (rc2Lookup L).2.1.eval (rc2Table x) r ∈ (rc2Lookup L).2.2 then []
      else [.lookupFault 0 r ((rc2Lookup L).2.1.eval (rc2Table x) r)] := by
  unfold rc2RowCheck
  rw [List.filterMap_cons, List.filterMap_nil]
  by_cases hx : (rc2Lookup L).2.1.eval (rc2Table x) r ∈ (rc2Lookup L).2.2
  · rw [if_pos hx, if_pos hx]
  · rw [if_neg hx, if_neg hx]
    rfl

/-- The lookup input - the q_lookup selector times the advice value -
evaluates to the claimed value at row 0 and to zero at every later row. -/
theorem rc2_input_eval (x : F) (r : ℕ) :
    Expr.eval (rc2Table x) r (.prod (.sel 1) (.adv 0 0)) =
      if r = 0 then x else 0 := by
  by_cases hr : r = 0
  · subst hr
    simp [Expr.eval, rc2Table]
  · simp [Expr.eval, rc2Table, hr]

/-- The lookup pass of the lookup range-check scenario reduces to the
membership check of the claimed value at row 0: every other row feeds the
gated-off input 0, which the nonempty table contains. -/
theorem rc2_lookupFailures (L m : ℕ) (hL : 0 < L) (x : F) :
    lookupFailures (rc2System L (m + 1)) (rc2Table x) =
      if x ∈ (List.range L).map (fun i : ℕ => (i : F)) then []
      else [.lookupFault 0 0 x] := by
  have hzero : (0 : F) ∈ (rc2Lookup L).2.2 :=
    List.mem_map.mpr ⟨0, List.mem_range.mpr hL, Nat.cast_zero⟩
  have hlf : lookupFailures (rc2System L (m + 1)) (rc2Table x) =
      (List.range (m + 1)).flatMap (rc2RowCheck L x) := rfl
  rw [hlf, List.range_succ_eq_map, List.flatMap_cons]
  have hexpr : (rc2Lookup L).2.1 = Expr.prod (.sel 1) (.adv 0 0) := rfl
  have hrest : ((List.range m).map Nat.succ).flatMap (rc2RowCheck L x) = [] := by
    refine List.flatMap_eq_nil_iff.mpr fun r hrow => ?_
    obtain ⟨j, hj, rfl⟩ := List.mem_map.mp hrow
    have he : (rc2Lookup L).2.1.eval (rc2Table x) (Nat.succ j) = 0 := by
      rw [hexpr, rc2_input_eval]
      simp
    rw [rc2RowCheck_eq, he, if_pos hzero]
  rw [hrest, List.append_nil]
  have he0 : (rc2Lookup L).2.1.eval (rc2Table x) 0 = x := by
    rw [hexpr, rc2_input_eval]
    simp
  rw [rc2RowCheck_eq, he0]
  have htbl : (rc2Lookup L).2.2 = (List.range L).map (fun i : ℕ => (i : F)) :=
    rfl
  rw [htbl]

/-- C6: for the lookup table pre-loaded with the values 0..L-1, a value v
assigned at the row where the lookup selector is active passes verification
exactly when v < L; for v = L the verifier reports the single LookupFailure
naming the offending row 0 and the value L. -/
theorem rc2_lookup_spec (L n v : ℕ) (hL0 : 0 < L) (hLP : L < P)
    (hv : v < P) (hn : 0 < n) :
    (verify (rc2System L n) (rc2Table ((v : ℕ) : F)) [] = [] ↔ v < L) ∧
      verify (rc2System L n) (rc2Table ((L : ℕ) : F)) [] =
        [.lookupFault 0 0 ((L : ℕ) : F)] := by
  obtain ⟨m, rfl⟩ : ∃ m, n = m + 1 := ⟨n - 1, by omega⟩
  have hcopy : ∀ x : F, copyFailures (rc2System L (m + 1)) (rc2Table x) = [] :=
    fun x => rfl
  have hbind : ∀ x : F,
      bindingFailures (rc2System L (m + 1)) (rc2Table x) [] = [] :=
    fun x => rfl
  constructor
  · unfold verify
    rw [rc2_gateFailures, rc2_lookupFailures L m hL0, hcopy, hbind]
    by_cases hx : ((v : ℕ) : F) ∈ (List.range L).map (fun i : ℕ => (i : F))
    · rw [if_pos hx]
      exact iff_of_true rfl ((castMemRange v L hv (le_of_lt hLP)).mp hx)
    · rw [if_neg hx]
      refine iff_of_false (by simp) fun h => hx ?_
      exact (castMemRange v L hv (le_of_lt hLP)).mpr h
  · unfold verify
    rw [rc2_gateFailures, rc2_lookupFailures L m hL0, hcopy, hbind]
    rw [if_neg fun h =>
      absurd ((castMemRange L L hLP (le_of_lt hLP)).mp h) (lt_irrefl L)]
    rfl

/-- C6 witness: with the table 0..2 over two rows, the value 2 passes (2 < 3)
and the value 3 produces exactly the LookupFailure at row 0 citing 3. -/
theorem rc2_lookup_spec_witness :
    ((verify (rc2System 3 2) (rc2Table ((2 : ℕ) : F)) [] = [] ↔ 2 < 3) ∧
      verify (rc2System 3 2) (rc2Table ((3 : ℕ) : F)) [] =
        [.lookupFault 0 0 ((3 : ℕ) : F)]) :=
  rc2_lookup_spec 3 2 2 (by decide) (by norm_num [P]) (by norm_num [P])
    (by decide)

/-- Synthesis-phase error values, after the library Error enum: a missing
witness value (Error::Synthesis), and an out-of-bounds instance row. -/
inductive SynthErr where
  | synthesis : SynthErr
  | boundsFault : SynthErr
deriving DecidableEq

/-- From appraoch1_2.rs assign_first_row: assigning the first-row cells
fails with the synthesis error when a seed witness is missing (ok_or),
otherwise yields the values (a, b, a + b). -/
def assignFirstRow (a b : Option F) : Except SynthErr (F × F × F) :=
  match a, b with
  | some x, some y => .ok (x, y, x + y)
  | _, _ => .error .synthesis

/-- From appraoch1_2.rs assign_row: the region assigns c = prev_b + prev_c;
with both previous values known it succeeds. -/
def assignRow (pb pc : F) : Except SynthErr F := .ok (pb + pc)

/-- From appraoch1_2.rs synthesize loop (for i in 3..10): each iteration
propagates the assign_row result with the question-mark operator and
shuffles prev_b and prev_c. -/
def fibo1LoopRun (pb pc : F) : ℕ → Except SynthErr F
  | 0 => .ok pc
  | k + 1 => do
      let c ← assignRow pb pc
      fibo1LoopRun pc c k

/-- Modelled from the spec: constrain_instance (called by expose_public)
against a public-input column of the given length fails when the declared
row is out of bounds (the library layouter is external). -/
def exposePublic (pubLen row : ℕ) : Except SynthErr Unit :=
  if row < pubLen then .ok () else .error .boundsFault

/-- From appraoch1_2.rs MyCircuit::synthesize: the first-row assignment and
every loop assignment are propagated with the question-mark operator, but
the three expose_public calls (instance rows 0, 1 and 2) are plain
statements: their Result values are bound and discarded, not propagated. -/
def fibo1Synthesize (a b : Option F) (pubLen : ℕ) : Except SynthErr Unit := do
  let fr ← assignFirstRow a b
  let _ := exposePublic pubLen 0
  let _ := exposePublic pubLen 1
  let _ ← fibo1LoopRun fr.2.1 fr.2.2 7
  let _ := exposePublic pubLen 2
  pure ()

/-- C8 counterexample: against an empty public-input column every
expose-public call errs, yet synthesize still returns Ok - the error values
produced by the expose-public (constrain-instance) calls are discarded, not
propagated to the caller. -/
theorem fibo1Synthesize_discards_expose_errors :
    exposePublic 0 0 = .error .boundsFault ∧
      exposePublic 0 1 = .error .boundsFault ∧
      exposePublic 0 2 = .error .boundsFault ∧
      fibo1Synthesize (some 1) (some 1) 0 = .ok () :=
  ⟨rfl, rfl, rfl, rfl⟩

/-- C8 (amended): errors from the assignment operations are propagated
fail-fast - a missing seed witness aborts synthesize with the synthesis
error - but the three expose-public results in the three-column layout's
synthesize are discarded: the outcome never depends on the public-input
length, and the only failure synthesize can report is the missing-witness
one. -/
theorem fibo1Synthesize_propagation (a b : Option F) (n m : ℕ) :
    fibo1Synthesize a b n = fibo1Synthesize a b m ∧
      (fibo1Synthesize a b n = .error SynthErr.synthesis ↔
        a = none ∨ b = none) ∧
      (fibo1Synthesize a b n = .ok () ↔
        a.isSome = true ∧ b.isSome = true) := by
  rcases a with _ | x <;> rcases b with _ | y <;>
    refine ⟨rfl, ?_, ?_⟩ <;>
      simp [fibo1Synthesize, assignFirstRow, fibo1LoopRun, assignRow,
        Bind.bind, Except.bind, Pure.pure, Except.pure]

/-- The two branches of the dual range-check assign helper. -/
inductive AssignBranch where
  | rangeCheckBranch : AssignBranch
  | lookupBranch : AssignBranch
deriving DecidableEq

/-- From example2.rs assign: assert that the requested range is at most the
gate RANGE (a failing assertion aborts the call, modelled as none), then
take the polynomial range-check branch when range < RANGE and the lookup
branch otherwise. -/
def rc2AssignBranch (RANGE range : ℕ) : Option AssignBranch :=
  if range ≤ RANGE then
    some (if range < RANGE then .rangeCheckBranch else .lookupBranch)
  else none

/-- From example2.rs tests MyCircuit::synthesize with RANGE = 8 and
LOOKUP_RANGE = 256: the two assign calls, in order. -/
def rc2TestBranches : Option AssignBranch × Option AssignBranch :=
  (rc2AssignBranch 8 8, rc2AssignBranch 8 256)

/-- C9: assign asserts range is at most RANGE before branching, so every
call with range strictly greater than RANGE aborts on the failing
assertion; the lookup branch is reached exactly when range equals RANGE;
and the test synthesize - assign with range 8 then with range 256 against
RANGE = 8 - takes the lookup branch and then hits the failing assertion. -/
theorem rc2_assign_assertion_spec :
    (∀ RANGE range : ℕ, RANGE < range → rc2AssignBranch RANGE range = none) ∧
      (∀ RANGE range : ℕ,
        rc2AssignBranch RANGE range = some AssignBranch.lookupBranch ↔
          range = RANGE) ∧
      rc2TestBranches = (some AssignBranch.lookupBranch, none) := by
  refine ⟨?_, ?_, by decide⟩
  · intro R r h
    rw [rc2AssignBranch, if_neg (by omega)]
  · intro R r
    unfold rc2AssignBranch
    by_cases h1 : r ≤ R
    · rw [if_pos h1]
      by_cases h2 : r < R
      · rw [if_pos h2]
        simp only [Option.some_inj]
        constructor
        · intro h
          exact absurd h (by simp)
        · intro h
          omega
      · rw [if_neg h2]
        simp only [Option.some_inj]
        constructor
        · intro _
          omega
        · intro _
          trivial
    · rw [if_neg h1]
      constructor
      · intro h
        exact absurd h (by simp)
      · intro h
        omega

/-- C9 witness: the lookup branch at range = RANGE = 8 and the aborted
assignment at range = 9 > 8. -/
theorem rc2_assign_assertion_spec_witness :
    rc2AssignBranch 8 9 = none ∧
      rc2AssignBranch 8 8 = some AssignBranch.lookupBranch :=
  ⟨rc2_assign_assertion_spec.1 8 9 (by decide),
    (rc2_assign_assertion_spec.2.1 8 8).mpr rfl⟩

/-- The advice rotations queried by an expression. -/
def Expr.advRotations (e : Expr) : List ℕ := e.advQueries.map (fun q => q.2)

/-- C10 counterexample: at nrows = 3 the selector is enabled at row 1 (rows
0 and 1 are always enabled), yet row 1 is not within rows 0..nrows - 3, and
its rotation +2 query reaches row 3, outside the nrows assigned rows. -/
theorem fib2_selector_three_rows_counterexample :
    fib2SelectorOn 3 1 = true ∧ 3 - 3 < 1 ∧ 3 ≤ 1 + 2 := by decide

/-- C10 (amended): for nrows at least 4, the assign operation enables the
gate selector exactly at rows 0 through nrows - 3, and at every enabled row
each advice query of the add gate - rotations 0, +1, +2 - resolves to a row
strictly below nrows, inside the assigned region. -/
theorem fib2_selector_spec (nrows row : ℕ) (h : 4 ≤ nrows) :
    (fib2SelectorOn nrows row = true ↔ row ≤ nrows - 3) ∧
      (fib2SelectorOn nrows row = true →
        ∀ p ∈ Expr.advQueries (.sum (.sum (.adv 0 0) (.adv 0 1))
          (.neg (.adv 0 2))), row + p.2 < nrows) := by
  have hgate : Expr.advQueries (.sum (.sum (.adv 0 0) (.adv 0 1))
      (.neg (.adv 0 2))) = [(0, 0), (0, 1), (0, 2)] := rfl
  constructor
  · simp only [fib2SelectorOn, Bool.or_eq_true, Bool.and_eq_true,
      decide_eq_true_eq]
    omega
  · intro hon p hp
    have hrow : row ≤ nrows - 3 := by
      revert hon
      simp only [fib2SelectorOn, Bool.or_eq_true, Bool.and_eq_true,
        decide_eq_true_eq]
      omega
    rw [hgate] at hp
    simp only [List.mem_cons, List.not_mem_nil, or_false] at hp
    rcases hp with rfl | rfl | rfl <;> simp only <;> omega

/-- C10 witness: at nrows = 10 (the source call) row 7 is enabled, being the
last row of 0..nrows - 3, and its furthest query, rotation +2, reaches row
9 < 10. -/
theorem fib2_selector_spec_witness :
    fib2SelectorOn 10 7 = true ∧ 7 + 2 < 10 := by
  have h := fib2_selector_spec 10 7 (by decide)
  exact ⟨h.1.mpr (by decide),
    h.2 (h.1.mpr (by decide)) (0, 2) (by decide)⟩

end Halo2
